import Mathlib

/-!
# The session registry of `cnd` (`pkg/storage/storage.go`)

A shallow embedding of the state-file registry: the persisted document, the
operations `insert`, `Get`, `Stop`, `Delete`, `deleteEntry`, `All`, and the
staleness check `RemoveIfStale`, followed by the properties proved about them.

Everything the Go code reads from its surroundings is a field of `World`:
the state file, the working directory, which folders exist, and the answer of
`syncthing.Exists`. An operation that touches the disk takes a `World` and
returns its result together with the `World` it leaves behind.

Go strings are modelled by `String`, the Go map `map[string]Service` by an
association list with unique keys, and a Go `error` by the type `Error`.
Logging calls have no effect on the registry and are left out.

The exported `Insert` runs `insert` and then starts a goroutine that calls
`Stop` once the context is cancelled; only `insert` and `Stop` are embedded.
-/

/-! ## Go library functions used by the package -/

namespace strings

/-- The pieces of `cs` between the occurrences of `sep`, on characters. -/
def splitChars (sep : Char) : List Char → List (List Char)
  | [] => [[]]
  | c :: cs =>
    if c = sep then [] :: splitChars sep cs
    else
      match splitChars sep cs with
      | [] => [[c]]
      | p :: ps => (c :: p) :: ps

/-- Go `strings.Split(s, sep)` for a separator of one character, the only way
the package calls it (`strings.Split(fullName, "/")`): the substrings of `s`
between the separators, `[s]` when `s` holds no separator. -/
def Split (s : String) (sep : Char) : List String :=
  (splitChars sep s.data).map String.mk

end strings

namespace path

/-- One step of `path.Clean` on a `/`-separated element: `ups` counts the
leading `..` elements kept (only in a path that is not rooted), `out` holds
the other elements kept so far, last one first. -/
def cleanStep (rooted : Bool) (st : Nat × List String) (c : String) : Nat × List String :=
  if c = "" ∨ c = "." then st
  else if c = ".." then
    match st.2 with
    | _ :: out => (st.1, out)
    | [] => if rooted then st else (st.1 + 1, [])
  else (st.1, c :: st.2)

/-- Go `path.Clean`: the shortest path equivalent to `p` by purely lexical
processing (empty and `.` elements dropped, `..` cancelling the element before
it, `..` at the root dropped, `.` for the empty result). -/
def Clean (p : String) : String :=
  if p = "" then "."
  else
    let rooted := p.data.head? = some '/'
    let st := (strings.Split p '/').foldl (cleanStep rooted) (0, [])
    let body := "/".intercalate (List.replicate st.1 ".." ++ st.2.reverse)
    if rooted then "/" ++ body
    else if body = "" then "." else body

/-- Go `path.Join`: the elements from the first non-empty one on, joined with
`/` and cleaned; the empty string when every element is empty. -/
def Join (elem : List String) : String :=
  match elem.dropWhile (fun e => e = "") with
  | [] => ""
  | es => Clean ("/".intercalate es)

end path

namespace filepath

/-- Go `filepath.IsAbs` on a Unix system: the path begins with a slash. -/
def IsAbs (p : String) : Bool :=
  p.data.head? = some '/'

end filepath

/-! ## The `dev` descriptor (`pkg/model`), as far as the package reads it -/

namespace model

/-- The deployment a `dev` swaps: its name and its container. -/
structure Deployment where
  Name : String
  Container : String
deriving DecidableEq, Repr

/-- The `Swap` part of a `dev`. -/
structure Swap where
  Deployment : model.Deployment
deriving DecidableEq, Repr

/-- The `Mount` part of a `dev`: the local source folder. -/
structure Mount where
  Source : String
deriving DecidableEq, Repr

/-- The fields of `model.Dev` read by the storage package. -/
structure Dev where
  Swap : model.Swap
  Mount : model.Mount
deriving DecidableEq, Repr

end model

namespace storage

/-! ## Data model -/

/-- The constant `version`. -/
def version : String := "1.0"

/-- The struct `Service`: the information kept about one cnd service. -/
structure Service where
  Folder : String
  Syncthing : String
deriving DecidableEq, Repr

/-- The Go type `map[string]Service`: at most one entry for a key. -/
abbrev Services := AList (fun _ : String => Service)

/-- The struct `Storage`: the cli state. -/
structure Storage where
  path : String
  Version : String
  Services : storage.Services

/-- The errors the package returns. `ErrAlreadyRunning` is the package
variable of that name; the others are built with `fmt.Errorf` where they
arise, or come from `os.Getwd`. -/
inductive Error where
  | ErrAlreadyRunning
  | reading (cause : String)
  | unmarshalling (cause : String)
  | writing (cause : String)
  | getwd (cause : String)
  | notFound (fullName : String)
  | invalidState (fullName : String) (stPath : String)
deriving DecidableEq, Repr

/-- The text of an error, as `err.Error()` gives it. -/
def Error.message : Error → String
  | .ErrAlreadyRunning => "up-already-running"
  | .reading cause => "error reading the storage file: " ++ cause
  | .unmarshalling cause => "error unmarshalling the storage file: " ++ cause
  | .writing cause => "error writing storage: " ++ cause
  | .getwd cause => cause
  | .notFound fullName =>
    "there aren't any active cloud native development environments available for '"
      ++ fullName ++ "'"
  | .invalidState fullName stPath =>
    "invalid state file, please remove " ++ fullName ++ " from " ++ stPath
      ++ " manualy and try again"

/-- What is at the path of the state file. A file that can be read and parsed
is given by what `yaml.Unmarshal` finds in it: the `version` field when the
file has one, and the `services` mapping (empty when the file has none,
which leaves the map `load` starts from). A file whose `services` field is
written as null is outside this description. -/
inductive StateFile where
  | absent
  | unreadable (cause : String)
  | malformed (cause : String)
  | document (version : Option String) (services : Services)

/-- The two ways `ioutil.WriteFile` fails. It opens the file for writing,
truncating it, then writes the bytes:
* `cannotOpen`: the file cannot be opened (no permission, a read-only file
  system) and stays as it was;
* `afterOpen`: the file was opened, so truncated, and the write then failed
  (no space left, a size limit, an input/output error); `left` is the empty or
  partial file that remains, as `load` will find it. The empty file is
  `.document none ∅`: `yaml.Unmarshal` of no bytes changes nothing. -/
inductive WriteFailure where
  | cannotOpen (cause : String)
  | afterOpen (cause : String) (left : StateFile)

/-- The surroundings of the package.
* `CNDHome`: the result of `config.GetCNDHome()`;
* `stateFile`: the file at `getSTPath()`;
* `writeError`: when present, `ioutil.WriteFile` on the state file fails in
  this way;
* `Getwd`: the result of `os.Getwd()`;
* `notExist p`: `os.Stat(p)` fails with a does-not-exist error, for a path
  other than the state file;
* `syncthingExists`: the function `syncthing.Exists`;
* `writes`: the number of calls of `ioutil.WriteFile` made so far. -/
structure World where
  CNDHome : String
  stateFile : StateFile
  writeError : Option WriteFailure
  Getwd : Except String String
  notExist : String → Bool
  syncthingExists : String → Bool
  writes : Nat

/-! ## The package functions -/

/-- `getSTPath`. -/
def getSTPath (w : World) : String :=
  path.Join [w.CNDHome, ".state"]

/-- The test `os.IsNotExist(err)` on the error of `os.Stat(p)`. -/
def statNotExist (w : World) (p : String) : Bool :=
  if p = getSTPath w then
    match w.stateFile with
    | .absent => true
    | _ => false
  else w.notExist p

/-- `load`: a missing file gives the empty document at the current version;
a file that cannot be read or parsed is an error; otherwise the fields found
in the file replace the initial ones. -/
def load (w : World) : Except Error Storage :=
  match w.stateFile with
  | .absent => .ok { path := getSTPath w, Version := version, Services := ∅ }
  | .unreadable cause => .error (.reading cause)
  | .malformed cause => .error (.unmarshalling cause)
  | .document v m => .ok { path := getSTPath w, Version := v.getD version, Services := m }

/-- `(s *Storage) save`: marshal and write the whole document to `s.path`,
which `load` always sets to `getSTPath()`. Both fields are tagged `omitempty`,
so an empty `Version` is not written. Marshalling a document of strings cannot
fail; a write that fails leaves the file as `WriteFailure` says. -/
def Storage.save (s : Storage) (w : World) : Except Error Unit × World :=
  match w.writeError with
  | some (.cannotOpen cause) => (.error (.writing cause), { w with writes := w.writes + 1 })
  | some (.afterOpen cause left) =>
    (.error (.writing cause), { w with stateFile := left, writes := w.writes + 1 })
  | none =>
    (.ok (), { w with
      stateFile := .document (if s.Version = "" then none else some s.Version) s.Services
      writes := w.writes + 1 })

/-- `fixPath`. -/
def fixPath (w : World) (originalPath : String) : Except Error String :=
  if filepath.IsAbs originalPath then .ok originalPath
  else
    match w.Getwd with
    | .error cause => .error (.getwd cause)
    | .ok folder => .ok (path.Join [folder, originalPath])

/-- `newService`. -/
def newService (w : World) (folder host : String) : Except Error Service :=
  match fixPath w folder with
  | .error e => .error e
  | .ok absFolder => .ok { Folder := absFolder, Syncthing := host }

/-- `getFullName`: `fmt.Sprintf("%s/%s/%s", ...)`. -/
def getFullName (ns : String) (dev : model.Dev) : String :=
  ns ++ "/" ++ dev.Swap.Deployment.Name ++ "/" ++ dev.Swap.Deployment.Container

/-- `getServiceFolder`. -/
def getServiceFolder (w : World) (fullName : String) : Except Error String :=
  match strings.Split fullName '/' with
  | p0 :: p1 :: _ => .ok (path.Join [w.CNDHome, p0, p1])
  | _ => .error (.invalidState fullName (getSTPath w))

/-- `insert`. -/
def insert (ns : String) (dev : model.Dev) (host : String) (w : World) :
    Except Error Unit × World :=
  match load w with
  | .error e => (.error e, w)
  | .ok s =>
    let fullName := getFullName ns dev
    match newService w dev.Mount.Source host with
    | .error e => (.error e, w)
    | .ok svc =>
      let store := Storage.save { s with Services := s.Services.insert fullName svc } w
      match s.Services.lookup fullName with
      | some svc2 =>
        if svc2 = svc then (.ok (), w)
        else if svc2.Syncthing ≠ "" then (.error .ErrAlreadyRunning, w)
        else store
      | none => store

/-- `Get`. -/
def Get (ns : String) (dev : model.Dev) (w : World) : Except Error Service :=
  match load w with
  | .error e => .error e
  | .ok s =>
    let fullName := getFullName ns dev
    match s.Services.lookup fullName with
    | none => .error (.notFound fullName)
    | some svc => .ok svc

/-- `Stop`. -/
def Stop (ns : String) (dev : model.Dev) (w : World) : Except Error Unit × World :=
  match load w with
  | .error e => (.error e, w)
  | .ok s =>
    let fullName := getFullName ns dev
    match s.Services.lookup fullName with
    | some svc =>
      Storage.save
        { s with Services := s.Services.insert fullName { svc with Syncthing := "" } } w
    | none => (.ok (), w)

/-- `deleteEntry`. -/
def deleteEntry (fullName : String) (w : World) : Except Error Unit × World :=
  match load w with
  | .error e => (.error e, w)
  | .ok s => Storage.save { s with Services := s.Services.erase fullName } w

/-- `Delete`. -/
def Delete (ns : String) (dev : model.Dev) (w : World) : Except Error Unit × World :=
  deleteEntry (getFullName ns dev) w

/-- `RemoveIfStale`. The error of `deleteEntry` is dropped, as in the source. -/
def RemoveIfStale (_svc : Service) (fullName : String) (w : World) : Bool × World :=
  match getServiceFolder w fullName with
  | .error _ => (false, w)
  | .ok serviceFolder =>
    if statNotExist w serviceFolder then (true, (deleteEntry fullName w).2)
    else if !w.syncthingExists serviceFolder then (true, (deleteEntry fullName w).2)
    else (false, w)

/-! ## Sample inputs -/

/-- A dev descriptor: deployment `api`, container `web`, source folder `/src`. -/
def sampleDev : model.Dev :=
  { Swap := { Deployment := { Name := "api", Container := "web" } }, Mount := { Source := "/src" } }

/-- A world with the given state file and write failure, home `/home/u/.cnd`. -/
def sampleWorld (f : StateFile) (we : Option WriteFailure) : World :=
  { CNDHome := "/home/u/.cnd", stateFile := f, writeError := we, Getwd := .ok "/work",
    notExist := fun _ => false, syncthingExists := fun _ => true, writes := 0 }

/-- A running session of `sampleDev` in namespace `team-a`. -/
def runningServices : Services :=
  (∅ : Services).insert "team-a/api/web" { Folder := "/src", Syncthing := "127.0.0.1:9000" }

/-- A stopped session of `sampleDev` in namespace `team-a`. -/
def stoppedServices : Services :=
  (∅ : Services).insert "team-a/api/web" { Folder := "/src", Syncthing := "" }

/-- The running session of `sampleDev` next to a session of namespace `team-b`. -/
def twoServices : Services :=
  runningServices.insert "team-b/db/main" { Folder := "/db", Syncthing := "127.0.0.1:9100" }

/-- The dev descriptor of `sampleDev` with the relative source folder `src`. -/
def relativeDev : model.Dev :=
  { sampleDev with Mount := { Source := "src" } }

/-- The world of `sampleWorld` in which the working directory cannot be found. -/
def lostWorld (f : StateFile) (we : Option WriteFailure) : World :=
  { sampleWorld f we with Getwd := .error "getwd: no such file or directory" }

/-- The world of `sampleWorld` in which no folder exists. -/
def goneWorld (f : StateFile) (we : Option WriteFailure) : World :=
  { sampleWorld f we with notExist := fun _ => true }

/-! ## Lemmas on the store -/

theorem save_fst_ok_iff (s : Storage) (w : World) :
    (s.save w).1 = .ok () ↔ w.writeError = none := by
  unfold Storage.save
  rcases w.writeError with _ | _ | _ <;> simp

theorem load_save_of_ok (s : Storage) (w : World) (h : (s.save w).1 = .ok ()) :
    ∃ s1, load (s.save w).2 = .ok s1 ∧ s1.Services = s.Services := by
  have hw := (save_fst_ok_iff s w).1 h
  unfold Storage.save
  rw [hw]
  exact ⟨_, rfl, rfl⟩

theorem load_congr {w w1 : World} (h : w1.stateFile = w.stateFile) (hh : w1.CNDHome = w.CNDHome) :
    load w1 = load w := by
  unfold load getSTPath
  rw [h, hh]

theorem save_Getwd (s : Storage) (w : World) : (s.save w).2.Getwd = w.Getwd := by
  unfold Storage.save
  rcases w.writeError with _ | _ | _ <;> rfl

theorem newService_congr {w w1 : World} (h : w1.Getwd = w.Getwd) (folder host : String) :
    newService w1 folder host = newService w folder host := by
  unfold newService fixPath
  rw [h]

/-- C1, conflict guard: when the store loads, the key `getFullName ns dev`
has an entry `e` with a non-empty Syncthing endpoint, and the candidate
`svc` (absolute source folder of the dev, host) differs from `e` in endpoint
or in folder, `insert` fails with `ErrAlreadyRunning` and returns the world it
was given: the state file is as it was and nothing was written. -/
theorem insert_conflict_guard (w : World) (ns : String) (dev : model.Dev) (host : String)
    (s : Storage) (e svc : Service)
    (hload : load w = .ok s)
    (hentry : s.Services.lookup (getFullName ns dev) = some e)
    (hrun : e.Syncthing ≠ "")
    (hsvc : newService w dev.Mount.Source host = .ok svc)
    (hne : svc.Syncthing ≠ e.Syncthing ∨ svc.Folder ≠ e.Folder) :
    insert ns dev host w = (.error .ErrAlreadyRunning, w) := by
  have hne2 : e ≠ svc := by
    rintro rfl
    rcases hne with h | h <;> exact h rfl
  unfold insert
  simp only [hload, hsvc, hentry]
  simp [hne2, hrun]

/-- The conflict guard at the running session of `sampleDev`, for a second
endpoint. -/
theorem insert_conflict_guard_witness :
    load (sampleWorld (.document (some "1.0") runningServices) none)
        = .ok { path := "/home/u/.cnd/.state", Version := "1.0", Services := runningServices } ∧
      insert "team-a" sampleDev "127.0.0.1:9001"
          (sampleWorld (.document (some "1.0") runningServices) none)
        = (.error .ErrAlreadyRunning, sampleWorld (.document (some "1.0") runningServices) none) :=
  ⟨rfl, insert_conflict_guard _ "team-a" sampleDev "127.0.0.1:9001"
    { path := "/home/u/.cnd/.state", Version := "1.0", Services := runningServices }
    { Folder := "/src", Syncthing := "127.0.0.1:9000" }
    { Folder := "/src", Syncthing := "127.0.0.1:9001" }
    rfl (by decide) (by decide) rfl (Or.inl (by decide))⟩


theorem insert_of_identical {w : World} {ns : String} {dev : model.Dev} {host : String}
    {s : Storage} {svc : Service} (hload : load w = .ok s)
    (hsvc : newService w dev.Mount.Source host = .ok svc)
    (hentry : s.Services.lookup (getFullName ns dev) = some svc) :
    insert ns dev host w = (.ok (), w) := by
  unfold insert
  simp only [hload, hsvc, hentry]
  simp

theorem insert_ok_cases {w : World} {ns : String} {dev : model.Dev} {host : String}
    (h : (insert ns dev host w).1 = .ok ()) :
    ∃ s svc, load w = .ok s ∧ newService w dev.Mount.Source host = .ok svc ∧
      ((s.Services.lookup (getFullName ns dev) = some svc ∧ insert ns dev host w = (.ok (), w)) ∨
        (insert ns dev host w
            = Storage.save { s with Services := s.Services.insert (getFullName ns dev) svc } w ∧
          (Storage.save { s with Services := s.Services.insert (getFullName ns dev) svc } w).1
            = .ok ())) := by
  unfold insert at h ⊢
  cases hl : load w with
  | error e => simp [hl] at h
  | ok s =>
    cases hn : newService w dev.Mount.Source host with
    | error e => simp [hl, hn] at h
    | ok svc =>
      refine ⟨s, svc, rfl, rfl, ?_⟩
      simp only [hl, hn] at h ⊢
      cases hk : s.Services.lookup (getFullName ns dev) with
      | none =>
        simp only [hk] at h ⊢
        exact Or.inr ⟨trivial, h⟩
      | some svc2 =>
        simp only [hk] at h ⊢
        by_cases heq : svc2 = svc
        · subst heq
          left
          simp
        · by_cases hrun : svc2.Syncthing = ""
          · simp only [heq, hrun, if_false, ne_eq, not_true_eq_false] at h ⊢
            exact Or.inr ⟨trivial, h⟩
          · simp [heq, hrun] at h

theorem newService_ok_iff {w : World} {folder host : String} {svc : Service} :
    newService w folder host = .ok svc ↔
      ∃ absFolder, fixPath w folder = .ok absFolder ∧
        svc = { Folder := absFolder, Syncthing := host } := by
  unfold newService
  cases fixPath w folder with
  | error e => simp
  | ok a =>
    simp only [Except.ok.injEq, exists_eq_left']
    exact eq_comm

theorem keys_count_of_lookup {m : Services} {k : String} {v : Service}
    (h : m.lookup k = some v) : m.keys.count k = 1 := by
  apply List.count_eq_one_of_mem m.keys_nodup
  rw [← AList.mem_keys, ← AList.lookup_isSome, h]
  rfl

theorem IsAbs_Clean {p : String} (h : filepath.IsAbs p = true) :
    filepath.IsAbs (path.Clean p) = true := by
  have hp : p ≠ "" := by
    rintro rfl
    simp [filepath.IsAbs] at h
  have hr : p.data.head? = some '/' := by
    simpa [filepath.IsAbs] using h
  unfold path.Clean
  simp only [hp, if_false, hr, if_true]
  simp [filepath.IsAbs, String.data_append]

theorem IsAbs_Join {cwd : String} (h : filepath.IsAbs cwd = true) (p : String) :
    filepath.IsAbs (path.Join [cwd, p]) = true := by
  have hr : cwd.data.head? = some '/' := by
    simpa [filepath.IsAbs] using h
  have hc : cwd ≠ "" := by
    rintro rfl
    simp at hr
  have hj : path.Join [cwd, p] = path.Clean (cwd ++ "/" ++ p) := by
    simp [path.Join, List.dropWhile, hc, String.intercalate, String.intercalate.go]
  rw [hj]
  apply IsAbs_Clean
  cases hd : cwd.data with
  | nil => simp [hd] at hr
  | cons c cs =>
    rw [hd] at hr
    simp only [List.head?_cons, Option.some.injEq] at hr
    simp [filepath.IsAbs, String.data_append, hd, hr]

theorem fixPath_ok {w : World} {source absFolder : String}
    (h : fixPath w source = .ok absFolder) :
    (filepath.IsAbs source = true → absFolder = source) ∧
      (filepath.IsAbs source = false →
        ∃ cwd, w.Getwd = .ok cwd ∧ absFolder = path.Join [cwd, source]) := by
  unfold fixPath at h
  cases ha : filepath.IsAbs source with
  | true =>
    simp only [ha, if_true, Except.ok.injEq] at h
    exact ⟨fun _ => h.symm, fun hf => nomatch hf⟩
  | false =>
    refine ⟨(fun hf => nomatch hf), fun _ => ?_⟩
    cases hg : w.Getwd with
    | error cause => simp [ha, hg] at h
    | ok cwd =>
      simp only [ha, hg, Except.ok.injEq] at h
      exact ⟨cwd, rfl, by simpa using h.symm⟩

theorem fixPath_IsAbs {w : World} {source absFolder : String}
    (h : fixPath w source = .ok absFolder)
    (hcwd : ∀ cwd, w.Getwd = .ok cwd → filepath.IsAbs cwd = true) :
    filepath.IsAbs absFolder = true := by
  obtain ⟨h1, h2⟩ := fixPath_ok h
  cases ha : filepath.IsAbs source with
  | true => rw [h1 ha]; exact ha
  | false =>
    obtain ⟨cwd, hg, he⟩ := h2 ha
    rw [he]
    exact IsAbs_Join (hcwd cwd hg) source

/-- C2, idempotent insert: when `insert` succeeds, the same `insert` run on
the world it leaves succeeds again and returns that world unchanged (no
write), and the store then loaded has the candidate (absolute source folder,
host) under the key `getFullName ns dev`, which occurs once among its keys.
The folder of the candidate is the source folder of the dev when that is
absolute, and `path.Join(cwd, source)` for the working directory `cwd`
otherwise; it is absolute, `os.Getwd` giving an absolute path. -/
theorem insert_idempotent (w : World) (ns : String) (dev : model.Dev) (host : String)
    (h : (insert ns dev host w).1 = .ok ()) :
    insert ns dev host (insert ns dev host w).2 = (.ok (), (insert ns dev host w).2) ∧
      ∃ absFolder s1, fixPath w dev.Mount.Source = .ok absFolder ∧
        (filepath.IsAbs dev.Mount.Source = true → absFolder = dev.Mount.Source) ∧
        (filepath.IsAbs dev.Mount.Source = false →
          ∃ cwd, w.Getwd = .ok cwd ∧ absFolder = path.Join [cwd, dev.Mount.Source]) ∧
        ((∀ cwd, w.Getwd = .ok cwd → filepath.IsAbs cwd = true) →
          filepath.IsAbs absFolder = true) ∧
        load (insert ns dev host w).2 = .ok s1 ∧
        s1.Services.lookup (getFullName ns dev)
          = some { Folder := absFolder, Syncthing := host } ∧
        s1.Services.keys.count (getFullName ns dev) = 1 := by
  obtain ⟨s, svc, hl, hn, hc⟩ := insert_ok_cases h
  obtain ⟨absFolder, hfix, hsvc⟩ := newService_ok_iff.1 hn
  obtain ⟨habs, hrel⟩ := fixPath_ok hfix
  rcases hc with ⟨hk, hi⟩ | ⟨hi, hs⟩
  · rw [hi]
    refine ⟨hi, absFolder, s, hfix, habs, hrel, fixPath_IsAbs hfix, hl, ?_,
      keys_count_of_lookup hk⟩
    rw [hk, hsvc]
  · obtain ⟨s1, hl1, hs1⟩ := load_save_of_ok _ _ hs
    have hk1 : s1.Services.lookup (getFullName ns dev) = some svc := by
      rw [hs1]
      exact AList.lookup_insert _
    rw [hi]
    have hn1 : newService (insert ns dev host w).2 dev.Mount.Source host = .ok svc := by
      rw [hi, newService_congr (save_Getwd _ w), hn]
    rw [hi] at hn1
    refine ⟨insert_of_identical hl1 hn1 hk1, absFolder, s1, hfix, habs, hrel,
      fixPath_IsAbs hfix, hl1, ?_, keys_count_of_lookup hk1⟩
    rw [hk1, hsvc]

/-- Two inserts in a row of the dev with the relative source folder `src`,
from the working directory `/work` and without a state file: the folder
stored is `/work/src`. -/
theorem insert_idempotent_witness :
    (insert "team-a" relativeDev "127.0.0.1:9000" (sampleWorld .absent none)).1 = .ok () ∧
      insert "team-a" relativeDev "127.0.0.1:9000"
          (insert "team-a" relativeDev "127.0.0.1:9000" (sampleWorld .absent none)).2
        = (.ok (), (insert "team-a" relativeDev "127.0.0.1:9000" (sampleWorld .absent none)).2) ∧
      ∃ s1, load (insert "team-a" relativeDev "127.0.0.1:9000" (sampleWorld .absent none)).2
          = .ok s1 ∧
        s1.Services.lookup "team-a/api/web"
          = some { Folder := "/work/src", Syncthing := "127.0.0.1:9000" } :=
  ⟨rfl,
    (insert_idempotent (sampleWorld .absent none) "team-a" relativeDev "127.0.0.1:9000" rfl).1,
    _, rfl, by decide⟩

/-- C3 as stated fails: with the stopped entry of `sampleDev` in the store,
`insert` returns the write error when the state file cannot be written, and
the error of `os.Getwd` when the source folder is relative and the working
directory cannot be found. -/
theorem insert_after_stop_counterexample :
    load (sampleWorld (.document (some "1.0") stoppedServices) (some (.cannotOpen "permission denied")))
        = .ok { path := "/home/u/.cnd/.state", Version := "1.0", Services := stoppedServices } ∧
      stoppedServices.lookup (getFullName "team-a" sampleDev)
        = some { Folder := "/src", Syncthing := "" } ∧
      (insert "team-a" sampleDev "127.0.0.1:9000"
          (sampleWorld (.document (some "1.0") stoppedServices) (some (.cannotOpen "permission denied")))).1
        = .error (.writing "permission denied") ∧
      (insert "team-a" sampleDev "127.0.0.1:9000"
          (sampleWorld (.document (some "1.0") stoppedServices) (some (.cannotOpen "permission denied")))).1
        ≠ .ok () ∧
      load (lostWorld (.document (some "1.0") stoppedServices) none)
        = .ok { path := "/home/u/.cnd/.state", Version := "1.0", Services := stoppedServices } ∧
      stoppedServices.lookup (getFullName "team-a" relativeDev)
        = some { Folder := "/src", Syncthing := "" } ∧
      (insert "team-a" relativeDev "127.0.0.1:9000"
          (lostWorld (.document (some "1.0") stoppedServices) none)).1
        = .error (.getwd "getwd: no such file or directory") :=
  ⟨rfl, (by decide), rfl, (fun h => nomatch h), rfl, (by decide), rfl⟩

/-- C3, amended: when the key has an entry whose Syncthing endpoint is empty,
the source folder of the dev can be made absolute (it is absolute, or
`os.Getwd` gives the working directory `cwd`), and the state file can be
written (or the stored entry already equals the candidate), `insert` succeeds
and the entry then stored for the key is the candidate, whatever folder the
stored entry had. The folder of the candidate is the source folder when that
is absolute and `path.Join(cwd, source)` otherwise; it is absolute when `cwd`
is. -/
theorem insert_after_stop (w : World) (ns : String) (dev : model.Dev) (host : String)
    (s : Storage) (e : Service) (cwd : String)
    (hload : load w = .ok s)
    (hentry : s.Services.lookup (getFullName ns dev) = some e)
    (hstopped : e.Syncthing = "")
    (hcwd : filepath.IsAbs dev.Mount.Source = true ∨ w.Getwd = .ok cwd)
    (hwrite : w.writeError = none ∨
      e = { Folder := if filepath.IsAbs dev.Mount.Source = true then dev.Mount.Source
                      else path.Join [cwd, dev.Mount.Source],
            Syncthing := host }) :
    (insert ns dev host w).1 = .ok () ∧
      (∃ s1, load (insert ns dev host w).2 = .ok s1 ∧
        s1.Services.lookup (getFullName ns dev)
          = some { Folder := if filepath.IsAbs dev.Mount.Source = true then dev.Mount.Source
                             else path.Join [cwd, dev.Mount.Source],
                   Syncthing := host }) ∧
      (filepath.IsAbs cwd = true →
        filepath.IsAbs (if filepath.IsAbs dev.Mount.Source = true then dev.Mount.Source
                        else path.Join [cwd, dev.Mount.Source]) = true) := by
  have hfix : fixPath w dev.Mount.Source
      = .ok (if filepath.IsAbs dev.Mount.Source = true then dev.Mount.Source
             else path.Join [cwd, dev.Mount.Source]) := by
    unfold fixPath
    cases ha : filepath.IsAbs dev.Mount.Source with
    | true => simp
    | false =>
      have hg : w.Getwd = .ok cwd := by
        rcases hcwd with hc | hc
        · rw [ha] at hc
          cases hc
        · exact hc
      simp [hg]
  have habs : filepath.IsAbs cwd = true →
      filepath.IsAbs (if filepath.IsAbs dev.Mount.Source = true then dev.Mount.Source
                      else path.Join [cwd, dev.Mount.Source]) = true := by
    intro hc
    cases ha : filepath.IsAbs dev.Mount.Source with
    | true => simpa using ha
    | false => simpa using IsAbs_Join hc dev.Mount.Source
  generalize (if filepath.IsAbs dev.Mount.Source = true then dev.Mount.Source
              else path.Join [cwd, dev.Mount.Source]) = absFolder at hfix hwrite habs ⊢
  have hn : newService w dev.Mount.Source host
      = .ok { Folder := absFolder, Syncthing := host } :=
    newService_ok_iff.2 ⟨absFolder, hfix, rfl⟩
  by_cases heq : e = { Folder := absFolder, Syncthing := host }
  · have hi : insert ns dev host w = (.ok (), w) :=
      insert_of_identical hload hn (heq ▸ hentry)
    refine ⟨?_, ⟨s, ?_, heq ▸ hentry⟩, habs⟩
    · rw [hi]
    · rw [hi]
      exact hload
  · have hw : w.writeError = none := hwrite.resolve_right heq
    have hi : insert ns dev host w
        = Storage.save { s with Services := (s.Services.insert (getFullName ns dev)
            { Folder := absFolder, Syncthing := host }) } w := by
      unfold insert
      simp only [hload, hn, hentry]
      simp [heq, hstopped]
    have hs := (save_fst_ok_iff { s with Services := (s.Services.insert (getFullName ns dev)
      { Folder := absFolder, Syncthing := host }) } w).2 hw
    obtain ⟨s1, hl1, hs1⟩ := load_save_of_ok _ _ hs
    refine ⟨?_, ⟨s1, ?_, ?_⟩, habs⟩
    · rw [hi]
      exact hs
    · rw [hi]
      exact hl1
    · rw [hs1]
      exact AList.lookup_insert _

/-- The stopped session of `sampleDev`, stored with folder `/src`, taken up
again from the relative source folder `src` in the working directory `/work`:
the entry becomes `/work/src` with the new endpoint. -/
theorem insert_after_stop_witness :
    (insert "team-a" relativeDev "127.0.0.1:9000"
        (sampleWorld (.document (some "1.0") stoppedServices) none)).1 = .ok () ∧
      (∃ s1, load (insert "team-a" relativeDev "127.0.0.1:9000"
          (sampleWorld (.document (some "1.0") stoppedServices) none)).2 = .ok s1 ∧
        s1.Services.lookup (getFullName "team-a" relativeDev)
          = some { Folder := "/work/src", Syncthing := "127.0.0.1:9000" }) ∧
      (filepath.IsAbs "/work" = true → filepath.IsAbs "/work/src" = true) :=
  insert_after_stop (sampleWorld (.document (some "1.0") stoppedServices) none)
    "team-a" relativeDev "127.0.0.1:9000"
    { path := "/home/u/.cnd/.state", Version := "1.0", Services := stoppedServices }
    { Folder := "/src", Syncthing := "" } "/work" rfl (by decide) rfl (Or.inr rfl) (Or.inl rfl)

/-- C4, stop keeps the entry: in a store that loads, when the key
`getFullName ns dev` has an entry `e` and `Stop` succeeds, `Get` on the world
it leaves succeeds with an entry whose Syncthing endpoint is empty and whose
folder is that of `e`; when the key has no entry, `Stop` succeeds and returns
the world it was given, nothing written. -/
theorem Stop_keeps_entry (w : World) (ns : String) (dev : model.Dev) (s : Storage)
    (hload : load w = .ok s) :
    (∀ e, s.Services.lookup (getFullName ns dev) = some e →
        (Stop ns dev w).1 = .ok () →
        ∃ svc, Get ns dev (Stop ns dev w).2 = .ok svc ∧
          svc.Syncthing = "" ∧ svc.Folder = e.Folder) ∧
      (s.Services.lookup (getFullName ns dev) = none → Stop ns dev w = (.ok (), w)) := by
  constructor
  · intro e he hstop
    have hi : Stop ns dev w
        = Storage.save { s with Services := (s.Services.insert (getFullName ns dev)
            { e with Syncthing := "" }) } w := by
      unfold Stop
      simp only [hload, he]
    rw [hi] at hstop ⊢
    obtain ⟨s1, hl1, hs1⟩ := load_save_of_ok _ _ hstop
    refine ⟨{ e with Syncthing := "" }, ?_, rfl, rfl⟩
    unfold Get
    simp only [hl1, hs1]
    rw [AList.lookup_insert]
  · intro hnone
    unfold Stop
    simp only [hload, hnone]

/-- Stopping the running session of `sampleDev`. -/
theorem Stop_keeps_entry_witness :
    load (sampleWorld (.document (some "1.0") runningServices) none)
        = .ok { path := "/home/u/.cnd/.state", Version := "1.0", Services := runningServices } ∧
      ∃ svc, Get "team-a" sampleDev
          (Stop "team-a" sampleDev
            (sampleWorld (.document (some "1.0") runningServices) none)).2 = .ok svc ∧
        svc.Syncthing = "" ∧ svc.Folder = "/src" :=
  ⟨rfl, (Stop_keeps_entry (sampleWorld (.document (some "1.0") runningServices) none)
    "team-a" sampleDev
    { path := "/home/u/.cnd/.state", Version := "1.0", Services := runningServices } rfl).1
    { Folder := "/src", Syncthing := "127.0.0.1:9000" } (by decide) rfl⟩

theorem deleteEntry_ok_load {fullName : String} {w : World}
    (h : (deleteEntry fullName w).1 = .ok ()) :
    ∃ s s1, load w = .ok s ∧ load (deleteEntry fullName w).2 = .ok s1 ∧
      s1.Services = s.Services.erase fullName := by
  unfold deleteEntry at h ⊢
  cases hl : load w with
  | error e => simp [hl] at h
  | ok s =>
    simp only [hl] at h ⊢
    obtain ⟨s1, hl1, hs1⟩ := load_save_of_ok _ _ h
    exact ⟨s, s1, rfl, hl1, hs1⟩

/-- C5, delete removes the entry: when `Delete` succeeds, whatever the store
held for the key, `Get` on the world it leaves fails with the not-found error
of the key, whose text ends with the full key
`namespace/deployment/container` between quotes. -/
theorem Delete_removes_entry (w : World) (ns : String) (dev : model.Dev)
    (hdel : (Delete ns dev w).1 = .ok ()) :
    Get ns dev (Delete ns dev w).2 = .error (.notFound (getFullName ns dev)) ∧
      (Error.notFound (getFullName ns dev)).message
        = "there aren't any active cloud native development environments available for '"
          ++ (ns ++ "/" ++ dev.Swap.Deployment.Name ++ "/" ++ dev.Swap.Deployment.Container)
          ++ "'" := by
  refine ⟨?_, rfl⟩
  unfold Delete at hdel ⊢
  obtain ⟨s, s1, _, hl1, hs1⟩ := deleteEntry_ok_load hdel
  unfold Get
  simp only [hl1, hs1]
  rw [AList.lookup_erase]

/-- Deleting the running session of `sampleDev`. -/
theorem Delete_removes_entry_witness :
    (Delete "team-a" sampleDev (sampleWorld (.document (some "1.0") runningServices) none)).1
        = .ok () ∧
      Get "team-a" sampleDev
          (Delete "team-a" sampleDev
            (sampleWorld (.document (some "1.0") runningServices) none)).2
        = .error (.notFound "team-a/api/web") :=
  ⟨rfl, (Delete_removes_entry (sampleWorld (.document (some "1.0") runningServices) none)
    "team-a" sampleDev rfl).1⟩


/-- When the derived folder is gone or the daemon is not alive, and the delete
goes through, `RemoveIfStale` returns true and the key has no entry left. -/
theorem RemoveIfStale_stale_of_deleted (w : World) (svc : Service) (fullName folder : String)
    (hf : getServiceFolder w fullName = .ok folder)
    (hstale : statNotExist w folder = true ∨ w.syncthingExists folder = false)
    (hdel : (deleteEntry fullName w).1 = .ok ()) :
    (RemoveIfStale svc fullName w).1 = true ∧
      ∃ s1, load (RemoveIfStale svc fullName w).2 = .ok s1 ∧
        s1.Services.lookup fullName = none := by
  obtain ⟨s, s1, _, hl1, hs1⟩ := deleteEntry_ok_load hdel
  have hr : RemoveIfStale svc fullName w = (true, (deleteEntry fullName w).2) := by
    unfold RemoveIfStale
    simp only [hf]
    rcases hstale with h | h
    · simp [h]
    · simp [h]
  rw [hr]
  refine ⟨rfl, s1, hl1, ?_⟩
  rw [hs1, AList.lookup_erase]

/-- C6, the failing input: the session `team-a/api/web` is in the store, its
derived folder `/home/u/.cnd/team-a/api` is gone, and the state file cannot be
opened for writing. `RemoveIfStale` returns true although `deleteEntry` failed, and `Get`
still finds the entry. -/
theorem RemoveIfStale_true_without_removal :
    getServiceFolder (goneWorld (.document (some "1.0") runningServices) (some (.cannotOpen "permission denied")))
        "team-a/api/web" = .ok "/home/u/.cnd/team-a/api" ∧
      statNotExist (goneWorld (.document (some "1.0") runningServices) (some (.cannotOpen "permission denied")))
        "/home/u/.cnd/team-a/api" = true ∧
      (deleteEntry "team-a/api/web"
          (goneWorld (.document (some "1.0") runningServices) (some (.cannotOpen "permission denied")))).1
        = .error (.writing "permission denied") ∧
      (RemoveIfStale { Folder := "/src", Syncthing := "127.0.0.1:9000" } "team-a/api/web"
          (goneWorld (.document (some "1.0") runningServices) (some (.cannotOpen "permission denied")))).1
        = true ∧
      Get "team-a" sampleDev
          (RemoveIfStale { Folder := "/src", Syncthing := "127.0.0.1:9000" } "team-a/api/web"
            (goneWorld (.document (some "1.0") runningServices) (some (.cannotOpen "permission denied")))).2
        = .ok { Folder := "/src", Syncthing := "127.0.0.1:9000" } := by
  exact ⟨rfl, by decide, rfl, by decide, rfl⟩

/-- C7, liveness no-op: when the folder derived from the key exists and
`syncthing.Exists` holds for it, `RemoveIfStale` returns false and the world
it was given: no entry removed or changed, nothing written. -/
theorem RemoveIfStale_live (w : World) (svc : Service) (fullName folder : String)
    (hf : getServiceFolder w fullName = .ok folder)
    (hfolder : statNotExist w folder = false)
    (hlive : w.syncthingExists folder = true) :
    RemoveIfStale svc fullName w = (false, w) := by
  unfold RemoveIfStale
  simp [hf, hfolder, hlive]

/-- The running session of `sampleDev`, folder present and daemon alive. -/
theorem RemoveIfStale_live_witness :
    RemoveIfStale { Folder := "/src", Syncthing := "127.0.0.1:9000" } "team-a/api/web"
        (sampleWorld (.document (some "1.0") runningServices) none)
      = (false, sampleWorld (.document (some "1.0") runningServices) none) :=
  RemoveIfStale_live (sampleWorld (.document (some "1.0") runningServices) none)
    { Folder := "/src", Syncthing := "127.0.0.1:9000" } "team-a/api/web"
    "/home/u/.cnd/team-a/api" rfl (by decide) rfl

theorem splitChars_append_sep (sep : Char) (a rest : List Char) (h : sep ∉ a) :
    strings.splitChars sep (a ++ sep :: rest) = a :: strings.splitChars sep rest := by
  induction a with
  | nil => simp [strings.splitChars]
  | cons c a ih =>
    have hc : c ≠ sep := fun hcs => h (by simp [hcs])
    have ha : sep ∉ a := fun hm => h (List.mem_cons_of_mem _ hm)
    simp [strings.splitChars, hc, ih ha]

theorem getFullName_data (ns : String) (dev : model.Dev) :
    (getFullName ns dev).data
      = ns.data ++ '/' :: (dev.Swap.Deployment.Name.data ++
          '/' :: dev.Swap.Deployment.Container.data) := by
  unfold getFullName
  simp [String.data_append]

theorem Split_getFullName (ns : String) (dev : model.Dev)
    (hns : '/' ∉ ns.data) (hdep : '/' ∉ dev.Swap.Deployment.Name.data) :
    strings.Split (getFullName ns dev) '/'
      = ns :: dev.Swap.Deployment.Name ::
          strings.Split dev.Swap.Deployment.Container '/' := by
  unfold strings.Split
  rw [getFullName_data, splitChars_append_sep _ _ _ hns, splitChars_append_sep _ _ _ hdep]
  rfl

/-- C9, the probed folder is derived from the key alone: when the namespace
and the deployment name hold no slash, `getServiceFolder` on the full name
succeeds with `path.Join(CNDHome, namespace, deployment)`; the container name
and the source folder of the dev do not change it, `RemoveIfStale` does not
read the entry it is given, and `getServiceFolder` fails exactly for the keys
that split into fewer than two segments. -/
theorem getServiceFolder_of_getFullName (w : World) (ns : String) (dev : model.Dev)
    (hns : '/' ∉ ns.data) (hdep : '/' ∉ dev.Swap.Deployment.Name.data) :
    getServiceFolder w (getFullName ns dev)
        = .ok (path.Join [w.CNDHome, ns, dev.Swap.Deployment.Name]) ∧
      (∀ container source,
        getServiceFolder w (getFullName ns
            { Swap := { Deployment := { Name := dev.Swap.Deployment.Name,
                                        Container := container } },
              Mount := { Source := source } })
          = getServiceFolder w (getFullName ns dev)) ∧
      (∀ svc svc1 fullName, RemoveIfStale svc fullName w = RemoveIfStale svc1 fullName w) ∧
      (∀ fullName, (∃ e, getServiceFolder w fullName = .error e) ↔
        (strings.Split fullName '/').length < 2) := by
  have key : ∀ d : model.Dev, d.Swap.Deployment.Name = dev.Swap.Deployment.Name →
      getServiceFolder w (getFullName ns d)
        = .ok (path.Join [w.CNDHome, ns, dev.Swap.Deployment.Name]) := by
    intro d hd
    unfold getServiceFolder
    rw [Split_getFullName ns d hns (hd ▸ hdep), hd]
  refine ⟨key dev rfl, ?_, fun _ _ _ => rfl, ?_⟩
  · intro container source
    rw [key dev rfl]
    exact key _ rfl
  · intro fullName
    unfold getServiceFolder
    cases hs : strings.Split fullName '/' with
    | nil => simp
    | cons p0 t =>
      cases t with
      | nil => simp
      | cons p1 t1 => simp

/-- The folder derived for `sampleDev` in namespace `team-a`. -/
theorem getServiceFolder_of_getFullName_witness :
    getServiceFolder (sampleWorld .absent none) (getFullName "team-a" sampleDev)
      = .ok "/home/u/.cnd/team-a/api" :=
  (getServiceFolder_of_getFullName (sampleWorld .absent none) "team-a" sampleDev
    (by decide) (by decide)).1

/-! ## Other sessions -/

theorem load_after_save (s1 : Storage) {w : World} {s : Storage} (hload : load w = .ok s)
    (hw : ∀ cause, (s1.save w).1 = .error (.writing cause) →
      w.writeError = some (.cannotOpen cause)) :
    ∃ s2, load (s1.save w).2 = .ok s2 ∧
      (s2.Services = s1.Services ∨ s2.Services = s.Services) := by
  unfold Storage.save at hw ⊢
  cases hwe : w.writeError with
  | none => exact ⟨_, rfl, Or.inl rfl⟩
  | some f =>
    cases f with
    | cannotOpen cause =>
      refine ⟨s, ?_, Or.inr rfl⟩
      rw [← hload]
      exact load_congr rfl rfl
    | afterOpen cause left =>
      simp only [hwe] at hw
      have h := hw cause rfl
      cases h

theorem insert_other_key {w : World} {s : Storage} (hload : load w = .ok s)
    (ns : String) (dev : model.Dev) (host : String) {k : String}
    (hk : k ≠ getFullName ns dev)
    (hw : ∀ cause, (insert ns dev host w).1 = .error (.writing cause) →
      w.writeError = some (.cannotOpen cause)) :
    ∃ s2, load (insert ns dev host w).2 = .ok s2 ∧
      s2.Services.lookup k = s.Services.lookup k := by
  have hsave : ∀ svc,
      (∀ cause, (Storage.save
          { s with Services := s.Services.insert (getFullName ns dev) svc } w).1
            = .error (.writing cause) → w.writeError = some (.cannotOpen cause)) →
      ∃ s2, load (Storage.save
        { s with Services := s.Services.insert (getFullName ns dev) svc } w).2 = .ok s2 ∧
      s2.Services.lookup k = s.Services.lookup k := by
    intro svc hws
    obtain ⟨s2, hl2, h2 | h2⟩ := load_after_save
      { s with Services := s.Services.insert (getFullName ns dev) svc } hload hws
    · exact ⟨s2, hl2, by rw [h2]; exact AList.lookup_insert_ne hk⟩
    · exact ⟨s2, hl2, by rw [h2]⟩
  unfold insert at hw ⊢
  simp only [hload] at hw ⊢
  cases hn : newService w dev.Mount.Source host with
  | error e => exact ⟨s, hload, rfl⟩
  | ok svc =>
    simp only [hn] at hw ⊢
    cases hl : s.Services.lookup (getFullName ns dev) with
    | none =>
      simp only [hl] at hw
      exact hsave svc hw
    | some svc2 =>
      simp only [hl] at hw
      simp only
      by_cases h1 : svc2 = svc
      · rw [if_pos h1]
        exact ⟨s, hload, rfl⟩
      · by_cases h2 : svc2.Syncthing ≠ ""
        · rw [if_neg h1, if_pos h2]
          exact ⟨s, hload, rfl⟩
        · rw [if_neg h1, if_neg h2] at hw ⊢
          exact hsave svc hw

theorem Stop_other_key {w : World} {s : Storage} (hload : load w = .ok s)
    (ns : String) (dev : model.Dev) {k : String} (hk : k ≠ getFullName ns dev)
    (hw : ∀ cause, (Stop ns dev w).1 = .error (.writing cause) →
      w.writeError = some (.cannotOpen cause)) :
    ∃ s2, load (Stop ns dev w).2 = .ok s2 ∧
      s2.Services.lookup k = s.Services.lookup k := by
  unfold Stop at hw ⊢
  simp only [hload] at hw ⊢
  cases hl : s.Services.lookup (getFullName ns dev) with
  | none => exact ⟨s, hload, rfl⟩
  | some svc =>
    simp only [hl] at hw
    simp only
    obtain ⟨s2, hl2, h2 | h2⟩ := load_after_save
      { s with Services := (s.Services.insert (getFullName ns dev)
        { svc with Syncthing := "" }) } hload hw
    · exact ⟨s2, hl2, by rw [h2]; exact AList.lookup_insert_ne hk⟩
    · exact ⟨s2, hl2, by rw [h2]⟩

theorem deleteEntry_other_key {w : World} {s : Storage} (hload : load w = .ok s)
    {k fullName : String} (hk : k ≠ fullName)
    (hw : ∀ cause, (deleteEntry fullName w).1 = .error (.writing cause) →
      w.writeError = some (.cannotOpen cause)) :
    ∃ s2, load (deleteEntry fullName w).2 = .ok s2 ∧
      s2.Services.lookup k = s.Services.lookup k := by
  unfold deleteEntry at hw ⊢
  simp only [hload] at hw ⊢
  obtain ⟨s2, hl2, h2 | h2⟩ := load_after_save
    { s with Services := s.Services.erase fullName } hload hw
  · exact ⟨s2, hl2, by rw [h2]; exact AList.lookup_erase_ne hk⟩
  · exact ⟨s2, hl2, by rw [h2]⟩

/-- C10 as stated fails: with the sessions `team-a/api/web` and
`team-b/db/main` in the store and a write that fails once the state file is
open, leaving it empty, `Stop` and `Delete` on `team-a/api/web` fail with the
write error and the store then loaded has lost `team-b/db/main`. -/
theorem other_sessions_undisturbed_counterexample :
    load (sampleWorld (.document (some "1.0") twoServices)
        (some (.afterOpen "no space left on device" (.document none ∅))))
      = .ok { path := "/home/u/.cnd/.state", Version := "1.0", Services := twoServices } ∧
    twoServices.lookup "team-b/db/main"
      = some { Folder := "/db", Syncthing := "127.0.0.1:9100" } ∧
    "team-b/db/main" ≠ getFullName "team-a" sampleDev ∧
    (Stop "team-a" sampleDev (sampleWorld (.document (some "1.0") twoServices)
        (some (.afterOpen "no space left on device" (.document none ∅))))).1
      = .error (.writing "no space left on device") ∧
    load (Stop "team-a" sampleDev (sampleWorld (.document (some "1.0") twoServices)
        (some (.afterOpen "no space left on device" (.document none ∅))))).2
      = .ok { path := "/home/u/.cnd/.state", Version := "1.0", Services := ∅ } ∧
    (Delete "team-a" sampleDev (sampleWorld (.document (some "1.0") twoServices)
        (some (.afterOpen "no space left on device" (.document none ∅))))).1
      = .error (.writing "no space left on device") ∧
    load (Delete "team-a" sampleDev (sampleWorld (.document (some "1.0") twoServices)
        (some (.afterOpen "no space left on device" (.document none ∅))))).2
      = .ok { path := "/home/u/.cnd/.state", Version := "1.0", Services := ∅ } ∧
    (∅ : Services).lookup "team-b/db/main" = none :=
  ⟨rfl, (by decide), (by decide), rfl, rfl, rfl, rfl, rfl⟩

/-- C10, amended: in a store that loads, for a key `k` other than the one
acted on, after `insert`, `Stop`, `Delete` or `deleteEntry`, whether it
succeeded or failed, the store still loads and holds for `k` what it held
before (the same entry, or none), provided that a write error, if that is
what the operation returned, came from a state file that could not be opened
(a write failing after the file was opened leaves it truncated). -/
theorem other_sessions_undisturbed (w : World) (s : Storage) (hload : load w = .ok s)
    (ns : String) (dev : model.Dev) (host : String) (k : String)
    (hk : k ≠ getFullName ns dev) :
    ((∀ cause, (insert ns dev host w).1 = .error (.writing cause) →
          w.writeError = some (.cannotOpen cause)) →
        ∃ s2, load (insert ns dev host w).2 = .ok s2 ∧
          s2.Services.lookup k = s.Services.lookup k) ∧
      ((∀ cause, (Stop ns dev w).1 = .error (.writing cause) →
          w.writeError = some (.cannotOpen cause)) →
        ∃ s2, load (Stop ns dev w).2 = .ok s2 ∧
          s2.Services.lookup k = s.Services.lookup k) ∧
      ((∀ cause, (Delete ns dev w).1 = .error (.writing cause) →
          w.writeError = some (.cannotOpen cause)) →
        ∃ s2, load (Delete ns dev w).2 = .ok s2 ∧
          s2.Services.lookup k = s.Services.lookup k) ∧
      (∀ fullName, k ≠ fullName →
        (∀ cause, (deleteEntry fullName w).1 = .error (.writing cause) →
          w.writeError = some (.cannotOpen cause)) →
        ∃ s2, load (deleteEntry fullName w).2 = .ok s2 ∧
          s2.Services.lookup k = s.Services.lookup k) :=
  ⟨insert_other_key hload ns dev host hk, Stop_other_key hload ns dev hk,
    deleteEntry_other_key hload hk, fun _ hne => deleteEntry_other_key hload hne⟩

/-- A session of another namespace, untouched by a `Stop` of `sampleDev`
whose write fails because the state file cannot be opened. -/
theorem other_sessions_undisturbed_witness :
    load (sampleWorld (.document (some "1.0") twoServices)
        (some (.cannotOpen "permission denied")))
      = .ok { path := "/home/u/.cnd/.state", Version := "1.0", Services := twoServices } ∧
    (Stop "team-a" sampleDev (sampleWorld (.document (some "1.0") twoServices)
        (some (.cannotOpen "permission denied")))).1
      = .error (.writing "permission denied") ∧
    ∃ s2, load (Stop "team-a" sampleDev (sampleWorld (.document (some "1.0") twoServices)
        (some (.cannotOpen "permission denied")))).2 = .ok s2 ∧
      s2.Services.lookup "team-b/db/main"
        = some { Folder := "/db", Syncthing := "127.0.0.1:9100" } :=
  ⟨rfl, rfl,
    (other_sessions_undisturbed
      (sampleWorld (.document (some "1.0") twoServices) (some (.cannotOpen "permission denied")))
      { path := "/home/u/.cnd/.state", Version := "1.0", Services := twoServices } rfl
      "team-a" sampleDev "127.0.0.1:9001" "team-b/db/main" (by decide)).2.1
      (fun cause h => by
        have h1 : (Except.error (Error.writing "permission denied") : Except Error Unit)
            = .error (.writing cause) := h
        cases h1
        rfl)⟩

end storage
